import Mathlib

/-
  Verification of tvctl firmware (src/fw/src/main.cpp).

  The firmware is a thin glue program over the external IRremote library:

    IRrecv receiver(2, ENABLE_LED_FEEDBACK);

    void setup() {
      Serial.begin(9600);
      receiver.enableIRIn();
    }

    void loop() {
      if (receiver.decode()) {
        Serial.println(receiver.decodedIRData.command);
        receiver.resume();
        delay(250);
      }
    }

  The IRremote receiver capability itself is not part of this repository;
  its observable behavior (non-blocking decode-ready query, decode result
  structure, discard-and-rearm) is modelled from the spec.  The glue code
  (`setup`, `loop`) is translated directly from main.cpp.
-/

/-- The decode result structure exposed by the receiver capability.
Modelled from the spec: the program reads exactly the `command` field; the
capability may expose further fields (protocol type, address, repeat flag),
which the program ignores. -/
structure IRData where
  protocol : Nat
  address : Nat
  command : Nat
  flags : Nat
  deriving DecidableEq

/-- The IRremote constant passed to the receiver constructor (feedback LED on). -/
def ENABLE_LED_FEEDBACK : Bool := true

/-- The infrared receiver capability.  Modelled from the spec: it is bound to
a fixed input pin with an optional feedback LED, reception is off until
enabled, and it holds at most one completed decode result awaiting
acknowledgment (`available`). -/
structure IRrecv where
  pin : Nat
  ledFeedback : Bool
  enabled : Bool
  available : Option IRData
  deriving DecidableEq

/-- Constructor `IRrecv receiver(pin, feedback)`: binds the pin and feedback
flag; reception is not yet enabled and no decode is pending. -/
def IRrecv.init (p : Nat) (fb : Bool) : IRrecv :=
  { pin := p, ledFeedback := fb, enabled := false, available := none }

/-- The file-scope global `IRrecv receiver(2, ENABLE_LED_FEEDBACK);`. -/
def receiver : IRrecv := IRrecv.init 2 ENABLE_LED_FEEDBACK

/-- `receiver.enableIRIn()`: start reception.  Modelled from the spec
(initialize-and-bind operation of the opaque capability). -/
def IRrecv.enableIRIn (r : IRrecv) : IRrecv := { r with enabled := true }

/-- `receiver.decode()`: non-blocking query, true iff a completed decode
result is available.  Modelled from the spec (has-a-decode-ready query). -/
def IRrecv.decode (r : IRrecv) : Bool := r.available.isSome

/-- `receiver.decodedIRData`: the decode result structure the capability
exposes; meaningful when `decode` reported true. -/
def IRrecv.decodedIRData (r : IRrecv) : IRData :=
  r.available.getD { protocol := 0, address := 0, command := 0, flags := 0 }

/-- `receiver.resume()`: discard the consumed decode result and re-arm.
Modelled from the spec (discard-and-rearm operation). -/
def IRrecv.resume (r : IRrecv) : IRrecv := { r with available := none }

/-- Modelled from the spec: a genuinely new signal arriving at the receiver.
It is captured only when reception is enabled and the previous decode has
been acknowledged; otherwise it is lost. -/
def receive (d : IRData) (r : IRrecv) : IRrecv :=
  if r.enabled && r.available.isNone then { r with available := some d } else r

/-- The text `Serial.println` emits for an unsigned integer value: its decimal
representation followed by the CR LF line terminator. -/
def println_line (n : Nat) : String := Nat.repr n ++ "\r\n"

/-- Observable effects of one invocation of `loop`, in program order. -/
inductive Event where
  | println (line : String)
  | resume
  | delay (ms : Nat)
  deriving DecidableEq

/-- One invocation of `void loop()` from main.cpp:
`if (receiver.decode()) { Serial.println(receiver.decodedIRData.command);
receiver.resume(); delay(250); }`.  Returns the receiver state after the
invocation and the list of observable effects in the order performed. -/
def loop (r : IRrecv) : IRrecv × List Event :=
  if r.decode then
    (r.resume,
      [Event.println (println_line r.decodedIRData.command),
       Event.resume,
       Event.delay 250])
  else
    (r, [])

/-- The serial output lines contained in an effect trace, in order. -/
def serialOut (es : List Event) : List String :=
  es.filterMap fun e =>
    match e with
    | Event.println l => some l
    | _ => none

/-- The number of re-arm (resume) calls in an effect trace. -/
def resumes (es : List Event) : Nat :=
  (es.filter fun e =>
    match e with
    | Event.resume => true
    | _ => false).length

/-- `n` consecutive invocations of `loop` with no intervening signal arrival;
the accumulated effect trace is returned alongside the final receiver state. -/
def runSteps : Nat → IRrecv → IRrecv × List Event
  | 0, r => (r, [])
  | n + 1, r =>
    let p := loop r
    let q := runSteps n p.1
    (q.1, p.2 ++ q.2)

/-- Whole-program state: the serial channel (its configured rate and the lines
written so far) and the receiver. -/
structure MachineState where
  serialBaud : Option Nat
  serialLines : List String
  recv : IRrecv
  deriving DecidableEq

/-- State at power-on, before `setup` runs. -/
def initialState : MachineState :=
  { serialBaud := none, serialLines := [], recv := receiver }

/-- `Serial.begin(baud)`: open the serial channel at the given rate. -/
def Serial_begin (baud : Nat) (s : MachineState) : MachineState :=
  { s with serialBaud := some baud }

/-- `void setup()` from main.cpp: `Serial.begin(9600); receiver.enableIRIn();`. -/
def setup (s : MachineState) : MachineState :=
  let s1 := Serial_begin 9600 s
  { s1 with recv := s1.recv.enableIRIn }

/-- One invocation of `loop` lifted to the whole-program state: the printed
lines are appended to the serial channel. -/
def loopM (s : MachineState) : MachineState :=
  let p := loop s.recv
  { s with recv := p.1, serialLines := s.serialLines ++ serialOut p.2 }

/-- The step relation of the running program: the runtime invokes `loop` again
(unconditionally, forever), or the environment delivers a new signal. -/
inductive Step : MachineState → MachineState → Prop
  | poll (s : MachineState) : Step s (loopM s)
  | arrive (s : MachineState) (d : IRData) :
      Step s { s with recv := receive d s.recv }

/-- Timed program state for the quiescence property: the current clock value,
the receiver, and the lines reported so far, each stamped with its report
time. -/
structure TState where
  now : Nat
  recv : IRrecv
  out : List (Nat × String)
  deriving DecidableEq

/-- Modelled from the spec: delivery of pending environment signals.  An
arrival whose time has come is presented to the receiver (and is lost if the
receiver has not been re-armed); later arrivals wait. -/
def deliver (s : TState) (arr : List (Nat × IRData)) :
    TState × List (Nat × IRData) :=
  match arr with
  | [] => (s, [])
  | (a, d) :: rest =>
    if a ≤ s.now then ({ s with recv := receive d s.recv }, rest)
    else (s, (a, d) :: rest)

/-- One invocation of `loop` on the timed state.  On a decode the line is
reported at the current time, the receiver is re-armed, and `delay(250)`
blocks the single thread of control until `now + 250`; modelled from the
spec, signals arriving strictly inside that pause window are lost.  An idle
poll is non-blocking (one clock tick for the iteration). -/
def loopT (s : TState) (arr : List (Nat × IRData)) :
    TState × List (Nat × IRData) :=
  if s.recv.decode then
    ({ now := s.now + 250,
       recv := s.recv.resume,
       out := s.out ++ [(s.now, println_line s.recv.decodedIRData.command)] },
     arr.filter fun p => p.1 ≤ s.now ∨ s.now + 250 ≤ p.1)
  else
    ({ s with now := s.now + 1 }, arr)

/-- Timed run: `n` iterations of deliver-then-loop. -/
def runT : Nat → TState → List (Nat × IRData) → TState
  | 0, s, _ => s
  | n + 1, s, arr =>
    let p := deliver s arr
    let q := loopT p.1 p.2
    runT n q.1 q.2

/-- Invariant of the timed run: every line already reported was reported at
least a full pause before the current time, and consecutive report times are
at least a full pause apart. -/
def TInv (s : TState) : Prop :=
  (∀ p ∈ s.out, p.1 + 250 ≤ s.now) ∧
    s.out.Chain' fun p q => p.1 + 250 ≤ q.1

/-! Helper lemmas. -/

/-- On a positive decode query, `loop` performs print, re-arm and pause. -/
lemma loop_ready (r : IRrecv) (h : r.decode = true) :
    loop r = (r.resume,
      [Event.println (println_line r.decodedIRData.command),
       Event.resume, Event.delay 250]) := by
  simp [loop, h]

/-- On a negative decode query, `loop` does nothing. -/
lemma loop_idle (r : IRrecv) (h : r.decode = false) : loop r = (r, []) := by
  simp [loop, h]

/-- Any number of invocations on an idle receiver leave it unchanged and
produce no effects. -/
lemma runSteps_idle (n : Nat) (r : IRrecv) (h : r.decode = false) :
    runSteps n r = (r, []) := by
  induction n with
  | zero => rfl
  | succ n ih => simp [runSteps, loop_idle r h, ih]

/-- After `resume`, the decode-ready query reports false. -/
lemma decode_resume (r : IRrecv) : r.resume.decode = false := by
  simp [IRrecv.resume, IRrecv.decode]

/-- `deliver` only changes the receiver, never the clock or the output. -/
lemma deliver_now_out (s : TState) (arr : List (Nat × IRData)) :
    (deliver s arr).1.now = s.now ∧ (deliver s arr).1.out = s.out := by
  unfold deliver
  cases arr with
  | nil => exact ⟨rfl, rfl⟩
  | cons p rest =>
    dsimp
    split
    · exact ⟨rfl, rfl⟩
    · exact ⟨rfl, rfl⟩

/-- `deliver` preserves the timed-run invariant. -/
lemma TInv_deliver (s : TState) (arr : List (Nat × IRData)) (h : TInv s) :
    TInv (deliver s arr).1 := by
  obtain ⟨h1, h2⟩ := deliver_now_out s arr
  exact ⟨fun p hp => h1 ▸ h.1 p (h2 ▸ hp), h2 ▸ h.2⟩

/-- `loopT` preserves the timed-run invariant. -/
lemma TInv_loopT (s : TState) (arr : List (Nat × IRData)) (h : TInv s) :
    TInv (loopT s arr).1 := by
  obtain ⟨h1, h2⟩ := h
  by_cases hd : s.recv.decode = true
  · have he : (loopT s arr).1 =
        { now := s.now + 250, recv := s.recv.resume,
          out := s.out ++ [(s.now, println_line s.recv.decodedIRData.command)] } := by
      simp [loopT, hd]
    rw [he]
    refine ⟨?_, ?_⟩
    · intro p hp
      simp only [List.mem_append, List.mem_singleton] at hp
      show p.1 + 250 ≤ s.now + 250
      rcases hp with hp | hp
      · have := h1 p hp
        omega
      · subst hp
        omega
    · rw [List.chain'_append]
      refine ⟨h2, List.chain'_singleton _, ?_⟩
      intro x hx y hy
      have hx' := List.mem_of_mem_getLast? hx
      rw [List.head?_cons, Option.mem_some_iff] at hy
      subst hy
      exact h1 x hx'
  · have hd' : s.recv.decode = false := by simpa using hd
    have he : (loopT s arr).1 = { s with now := s.now + 1 } := by
      simp [loopT, hd']
    rw [he]
    exact ⟨fun p hp => Nat.le_succ_of_le (h1 p hp), h2⟩

/-- `runT` preserves the timed-run invariant. -/
lemma TInv_runT (n : Nat) (s : TState) (arr : List (Nat × IRData)) (h : TInv s) :
    TInv (runT n s arr) := by
  induction n generalizing s arr with
  | zero => exact h
  | succ n ih =>
    unfold runT
    exact ih _ _ (TInv_loopT _ _ (TInv_deliver _ _ h))

/-! Claim theorems. -/

/-- Claim C1 (exact pass-through): for every decode result whose command field
equals an integer V in the representable range of the decode capability
(0 to 65535), the poll step's serial output is exactly the decimal
representation of V followed by a line terminator, with no transformation,
rounding, or filtering applied. -/
theorem passThrough_exact (r : IRrecv) (V : Nat)
    (h : r.decode = true) (hv : r.decodedIRData.command = V) (_hV : V < 65536) :
    serialOut (loop r).2 = [Nat.repr V ++ "\r\n"] := by
  rw [loop_ready r h, hv]
  rfl

/-- Concrete ready receiver holding a decode with command 34. -/
def readyReceiver34 : IRrecv :=
  { pin := 2, ledFeedback := true, enabled := true,
    available := some { protocol := 1, address := 5, command := 34, flags := 0 } }

/-- Witness for claim C1: a ready decode with command 34 yields exactly the
output line consisting of the decimal digits 34 and the line terminator. -/
theorem passThrough_exact_witness :
    serialOut (loop readyReceiver34).2 = [Nat.repr 34 ++ "\r\n"] :=
  passThrough_exact readyReceiver34 34 (by decide) (by decide) (by decide)

/-- Claim C2 (order of operations): in every poll-step invocation where a
decode is ready, the step first emits the command identifier on the serial
channel, then instructs the receiver to discard the consumed decode result
and re-arm, and only then performs the fixed 250 time-unit pause, in exactly
that order. -/
theorem decode_event_order (r : IRrecv) (h : r.decode = true) :
    (loop r).2 = [Event.println (println_line r.decodedIRData.command),
                  Event.resume, Event.delay 250] := by
  rw [loop_ready r h]

/-- Concrete ready receiver holding a decode with command 81. -/
def readyReceiver81 : IRrecv :=
  { pin := 2, ledFeedback := true, enabled := true,
    available := some { protocol := 2, address := 7, command := 81, flags := 0 } }

/-- Witness for claim C2 at a concrete ready receiver. -/
theorem decode_event_order_witness :
    (loop readyReceiver81).2
      = [Event.println (println_line 81), Event.resume, Event.delay 250] :=
  decode_event_order readyReceiver81 (by decide)

/-- Claim C3 (idle-path frame condition): in every poll-step invocation where
no decode is ready, the step produces no serial output, issues no re-arm,
performs no pause, and leaves the receiver state unchanged; across any number
of consecutive no-decode invocations (in particular 100), zero output lines
are produced. -/
theorem idle_frame (r : IRrecv) (h : r.decode = false) :
    loop r = (r, []) ∧ ∀ n, runSteps n r = (r, []) :=
  ⟨loop_idle r h, fun n => runSteps_idle n r h⟩

/-- Concrete idle receiver (enabled, no decode pending). -/
def idleReceiver : IRrecv :=
  { pin := 2, ledFeedback := true, enabled := true, available := none }

/-- Witness for claim C3: 100 consecutive invocations on an idle receiver
leave it unchanged and produce an empty effect trace. -/
theorem idle_frame_witness :
    runSteps 100 idleReceiver = (idleReceiver, []) :=
  (idle_frame idleReceiver (by decide)).2 100

/-- Claim C4 (unconditional print, no error path): for every decode result,
including one whose sentinel command value is 0, the poll step prints the
command value as-is; no value is validated, filtered, or suppressed, and no
error branch exists (the output is the same one-line print for every command
value, with no side condition on the value). -/
theorem unconditional_print (r : IRrecv) (h : r.decode = true) :
    serialOut (loop r).2 = [println_line r.decodedIRData.command] := by
  rw [loop_ready r h]
  rfl

/-- Concrete receiver holding a malformed decode: sentinel command value 0. -/
def readyReceiver0 : IRrecv :=
  { pin := 2, ledFeedback := true, enabled := true,
    available := some { protocol := 0, address := 0, command := 0, flags := 1 } }

/-- Witness for claim C4: a malformed decode with sentinel command 0 is
printed as-is, producing the output line consisting of the digit 0 and the
line terminator. -/
theorem unconditional_print_witness :
    serialOut (loop readyReceiver0).2 = ["0\r\n"] := by
  have h := unconditional_print readyReceiver0 (by decide)
  simpa [println_line] using h

/-- Claim C5 (no duplicate reports): once a decode is consumed and the
receiver is told to resume, the decode-ready query returns false, and it
stays false across any number of further poll invocations (which therefore
produce no output) until a genuinely new signal arrives; the same decode is
never printed twice. -/
theorem no_duplicate_report (r : IRrecv) (h : r.decode = true) :
    (loop r).1.decode = false ∧
      ∀ n, runSteps n (loop r).1 = ((loop r).1, []) := by
  have h1 : (loop r).1 = r.resume := by rw [loop_ready r h]
  refine ⟨?_, ?_⟩
  · rw [h1]
    exact decode_resume r
  · intro n
    apply runSteps_idle
    rw [h1]
    exact decode_resume r

/-- Concrete ready receiver holding a decode with command 9. -/
def readyReceiver9 : IRrecv :=
  { pin := 2, ledFeedback := true, enabled := true,
    available := some { protocol := 4, address := 1, command := 9, flags := 0 } }

/-- Witness for claim C5: after a concrete decode is consumed, the ready
query reports false and 50 further polls produce no effects. -/
theorem no_duplicate_report_witness :
    (loop readyReceiver9).1.decode = false ∧
      runSteps 50 (loop readyReceiver9).1 = ((loop readyReceiver9).1, []) :=
  ⟨(no_duplicate_report readyReceiver9 (by decide)).1,
   (no_duplicate_report readyReceiver9 (by decide)).2 50⟩

/-- Claim C6 (initialization constants): the global receiver is constructed
on fixed input pin 2 with the LED feedback indicator enabled, and the
one-time `setup` opens the serial channel at the fixed rate 9600 and enables
reception; all of these are compile-time constants of the program text. -/
theorem setup_constants :
    receiver.pin = 2 ∧ receiver.ledFeedback = true ∧
      ENABLE_LED_FEEDBACK = true ∧
      (setup initialState).serialBaud = some 9600 ∧
      (setup initialState).recv.pin = 2 ∧
      (setup initialState).recv.enabled = true :=
  ⟨rfl, rfl, rfl, rfl, rfl, rfl⟩

/-- Claim C7 (post-decode quiescence): report times in any timed run are at
least a full 250 time-unit pause apart — after a decode is reported no
further signal is processed for at least the pause duration — and any signal
arriving strictly inside the pause window opened by a report is lost (it is
dropped from the pending arrivals without being captured). -/
theorem post_decode_quiescence (n : Nat) (s : TState)
    (arr : List (Nat × IRData)) (h : TInv s) :
    ((runT n s arr).out).Chain' (fun p q => p.1 + 250 ≤ q.1) ∧
      (s.recv.decode = true → ∀ a d, s.now < a → a < s.now + 250 →
        (a, d) ∉ (loopT s arr).2) := by
  refine ⟨(TInv_runT n s arr h).2, ?_⟩
  intro hd a d ha hb hmem
  have he : (loopT s arr).2 = arr.filter fun p => p.1 ≤ s.now ∨ s.now + 250 ≤ p.1 := by
    simp [loopT, hd]
  rw [he, List.mem_filter] at hmem
  have hcond := hmem.2
  simp only [decide_eq_true_eq] at hcond
  omega

/-- Concrete timed start state: clock at 0, a decode with command 55 ready,
nothing reported yet. -/
def quiescenceStart : TState :=
  { now := 0,
    recv :=
      { pin := 2, ledFeedback := true, enabled := true,
        available := some { protocol := 1, address := 2, command := 55, flags := 0 } },
    out := [] }

/-- Concrete arrival schedule: a second signal arrives at time 100, inside
the pause window opened by the report at time 0. -/
def quiescenceArrivals : List (Nat × IRData) :=
  [(100, { protocol := 1, address := 2, command := 77, flags := 0 })]

/-- Witness for claim C7 at a concrete timed run. -/
theorem post_decode_quiescence_witness :
    TInv quiescenceStart ∧
      (((runT 5 quiescenceStart quiescenceArrivals).out).Chain'
          (fun p q => p.1 + 250 ≤ q.1) ∧
        (quiescenceStart.recv.decode = true →
          ∀ a d, quiescenceStart.now < a → a < quiescenceStart.now + 250 →
          (a, d) ∉ (loopT quiescenceStart quiescenceArrivals).2)) :=
  ⟨by simp [TInv, quiescenceStart],
   post_decode_quiescence 5 quiescenceStart quiescenceArrivals
     (by simp [TInv, quiescenceStart])⟩

/-- Claim C8 (noninterference of ignored fields): the effect trace of a poll
step depends only on the command field of the decode result — two ready
receivers whose decode results agree on the command field produce identical
effects (hence identical serial output), whatever their other fields. -/
theorem output_depends_only_on_command (r1 r2 : IRrecv)
    (h1 : r1.decode = true) (h2 : r2.decode = true)
    (hc : r1.decodedIRData.command = r2.decodedIRData.command) :
    (loop r1).2 = (loop r2).2 := by
  simp [loop_ready r1 h1, loop_ready r2 h2, hc]

/-- Concrete ready receiver with command 42, one set of ignored fields. -/
def cmdReceiverA : IRrecv :=
  { pin := 2, ledFeedback := true, enabled := true,
    available := some { protocol := 1, address := 10, command := 42, flags := 0 } }

/-- Concrete ready receiver with command 42 but different protocol, address,
flags, pin and LED setting. -/
def cmdReceiverB : IRrecv :=
  { pin := 3, ledFeedback := false, enabled := true,
    available := some { protocol := 7, address := 99, command := 42, flags := 1 } }

/-- Witness for claim C8: the two receivers above produce identical effects. -/
theorem output_depends_only_on_command_witness :
    (loop cmdReceiverA).2 = (loop cmdReceiverB).2 :=
  output_depends_only_on_command cmdReceiverA cmdReceiverB
    (by decide) (by decide) (by decide)

/-- Claim C9 (non-termination): viewed as a step relation on program state,
every state has a successor — the runtime re-invokes the poll step
unconditionally, so there is no termination condition and no terminal
state. -/
theorem loop_forever (s : MachineState) : ∃ t, Step s t :=
  ⟨loopM s, Step.poll s⟩

/-- Claim C10 (per-invocation output bound): every single invocation of the
poll step emits at most one serial output line and issues at most one
re-arm, whatever the receiver state. -/
theorem at_most_one_report_per_step (r : IRrecv) :
    (serialOut (loop r).2).length ≤ 1 ∧ resumes (loop r).2 ≤ 1 := by
  by_cases h : r.decode = true
  · rw [loop_ready r h]
    exact ⟨Nat.le_refl 1, Nat.le_refl 1⟩
  · rw [loop_idle r (by simpa using h)]
    exact ⟨Nat.zero_le 1, Nat.zero_le 1⟩
